import Mathlib

/-!
Verification of the lap-data aggregation and race-table construction pipeline
of `src/app/data_processor.py` (F1Monitoring).

The pandas DataFrames are embedded as Lean lists:
* a lap table is a `List LapRecord` (one element per row, in row order);
* a keyed table (drivers, results, lap aggregates) is a `List (κ × payload)`,
  the first component being the `driver_number` join key;
* a missing cell (pandas `NaN`) is `Option.none`;
* durations, speeds and points are `ℚ` (the claims under study concern which
  samples enter an aggregate, not float rounding).

Pandas library semantics used by the source are embedded as follows:
* `df[df[c].notna()]` keeps exactly the rows whose cell is `some`;
* `sort_values([k1, k2])` sorts by the lexicographic key with `NaN` placed
  last per key (`na_position='last'`), descending keys reversed;
* `groupby(k)` forms, for each distinct key (ascending), the sublist of rows
  with that key, in input order (`sort=True` default);
* `groupby(k)[c].idxmin()` is the first row (input order) of the group
  attaining the minimal present value of `c`;
* `groupby(k)[cs].min()` / `.mean()` skip `NaN` cells and give `NaN` for a
  group with no present cell;
* `merge(on=k, how='left')` keeps every left row in order, expanding it by
  its matches and filling the right columns with `NaN` when there is none;
  `how='inner'` (the default) drops unmatched left rows instead;
* merging on key columns of which exactly one has a numeric dtype raises
  `ValueError` before any row is joined; two `object` key columns are joined
  with Python value equality, under which values of different types are
  simply unequal.
-/

namespace F1M

/-- One row of the raw lap table (one lap of one driver).  Optional cells
model pandas `NaN`. -/
structure LapRecord where
  driver_number : ℤ
  lap_number : ℤ
  lap_duration : Option ℚ
  duration_sector_1 : Option ℚ
  duration_sector_2 : Option ℚ
  duration_sector_3 : Option ℚ
  i1_speed : Option ℚ
  i2_speed : Option ℚ
  st_speed : Option ℚ
deriving DecidableEq

/-- Sort key of `sort_values(['driver_number', 'lap_number'])`:
lexicographic on the two integer columns, both ascending. -/
def lapKey (r : LapRecord) : ℤ ×ₗ ℤ := toLex (r.driver_number, r.lap_number)

/-- Row comparison used by the filter stage's sort. -/
def lapLE (a b : LapRecord) : Prop := lapKey a ≤ lapKey b

instance : DecidableRel lapLE :=
  fun a b => inferInstanceAs (Decidable (lapKey a ≤ lapKey b))

instance : IsTotal LapRecord lapLE := ⟨fun a b => le_total (lapKey a) (lapKey b)⟩

instance : IsTrans LapRecord lapLE := ⟨fun _ _ _ h h2 => le_trans h h2⟩

/-- `process_lap_data` (LapRecordFilter): return an empty input unchanged;
otherwise drop rows with no `lap_duration` and sort by
(`driver_number`, `lap_number`). -/
def process_lap_data (df : List LapRecord) : List LapRecord :=
  if df.isEmpty then df
  else List.insertionSort lapLE (df.filter (fun r => r.lap_duration.isSome))

/-- The distinct `driver_number` keys of a lap table, ascending: the groups
of `df.groupby('driver_number')`. -/
def groupKeys (df : List LapRecord) : List ℤ :=
  List.insertionSort (· ≤ ·) (df.map LapRecord.driver_number).dedup

/-- The rows of the group of driver `d`, in input order. -/
def groupOf (df : List LapRecord) (d : ℤ) : List LapRecord :=
  df.filter (fun r => decide (r.driver_number = d))

/-- `groupby('driver_number')['lap_duration'].idxmin()` restricted to one
group: the first row attaining the minimal present `lap_duration`, paired
with that minimum; `none` when no row has a present duration (pandas raises
there). -/
def argminDuration : List LapRecord → Option (LapRecord × ℚ)
  | [] => none
  | r :: rest =>
    match r.lap_duration with
    | none => argminDuration rest
    | some q =>
      match argminDuration rest with
      | none => some (r, q)
      | some (r2, q2) => if q ≤ q2 then some (r, q) else some (r2, q2)

/-- One output row of `get_best_lap_times`: the projected columns. -/
structure BestLapRow where
  driver_number : ℤ
  lap_duration : Option ℚ
  duration_sector_1 : Option ℚ
  duration_sector_2 : Option ℚ
  duration_sector_3 : Option ℚ
  i1_speed : Option ℚ
  i2_speed : Option ℚ
  st_speed : Option ℚ
deriving DecidableEq

/-- Column projection of `best_laps[['driver_number', 'lap_duration', ...]]`:
all eight columns are read from the one selected row. -/
def projectBest (r : LapRecord) : BestLapRow :=
  { driver_number := r.driver_number
    lap_duration := r.lap_duration
    duration_sector_1 := r.duration_sector_1
    duration_sector_2 := r.duration_sector_2
    duration_sector_3 := r.duration_sector_3
    i1_speed := r.i1_speed
    i2_speed := r.i2_speed
    st_speed := r.st_speed }

/-- `df.loc[df.groupby('driver_number')['lap_duration'].idxmin()]`, group by
group; `none` models the exception pandas raises when a group has no present
duration. -/
def bestLapsAux (df : List LapRecord) : List ℤ → Option (List BestLapRow)
  | [] => some []
  | d :: ds =>
    match argminDuration (groupOf df d) with
    | none => none
    | some (r, _) =>
      match bestLapsAux df ds with
      | none => none
      | some rest => some (projectBest r :: rest)

/-- `get_best_lap_times` (BestLapExtractor): empty input gives an empty
table; otherwise one row per distinct driver, from the row with the minimal
`lap_duration`. -/
def get_best_lap_times (df : List LapRecord) : Option (List BestLapRow) :=
  if df.isEmpty then some []
  else bestLapsAux df (groupKeys df)

/-- Minimum of a list of rationals, `none` on the empty list. -/
def minList : List ℚ → Option ℚ
  | [] => none
  | x :: xs =>
    match minList xs with
    | none => some x
    | some m => some (min x m)

/-- Pandas column `min()`: minimum over the present cells, `NaN` when there
is none. -/
def minOpt (l : List (Option ℚ)) : Option ℚ := minList (l.filterMap id)

/-- Pandas column `mean()`: arithmetic mean over the present cells, `NaN`
when there is none. -/
def meanOpt (l : List (Option ℚ)) : Option ℚ :=
  let ps := l.filterMap id
  if ps.isEmpty then none else some (ps.sum / (ps.length : ℚ))

/-- Pandas `merge(on=key)` with the default `how='inner'` over keyed tables:
each left row is expanded by its matches on the right, unmatched left rows
are dropped. -/
def innerMergeRows {α β : Type} (left : List (ℤ × α)) (right : List (ℤ × β)) :
    List (ℤ × α × β) :=
  left.flatMap (fun ka =>
    (right.filter (fun kb => decide (kb.1 = ka.1))).map (fun kb => (ka.1, ka.2, kb.2)))

/-- The non-key columns of one row of `get_race_lap_times`' output. -/
structure AggFields where
  best_lap_duration : Option ℚ
  mean_i1_speed : Option ℚ
  mean_i2_speed : Option ℚ
  mean_st_speed : Option ℚ
  best_sector_1 : Option ℚ
  best_sector_2 : Option ℚ
  best_sector_3 : Option ℚ
deriving DecidableEq

/-- `get_race_lap_times` (RaceAggregateBuilder): per driver, the minimal lap
duration, the mean of each speed column and the minimum of each sector
column, assembled — as in the source — by two inner merges of the three
per-group aggregate tables. -/
def get_race_lap_times (df : List LapRecord) : List (ℤ × AggFields) :=
  if df.isEmpty then []
  else
    let best_laps : List (ℤ × Option ℚ) :=
      (groupKeys df).map (fun d => (d, minOpt ((groupOf df d).map LapRecord.lap_duration)))
    let mean_speeds : List (ℤ × Option ℚ × Option ℚ × Option ℚ) :=
      (groupKeys df).map (fun d =>
        (d, meanOpt ((groupOf df d).map LapRecord.i1_speed),
            meanOpt ((groupOf df d).map LapRecord.i2_speed),
            meanOpt ((groupOf df d).map LapRecord.st_speed)))
    let best_sectors : List (ℤ × Option ℚ × Option ℚ × Option ℚ) :=
      (groupKeys df).map (fun d =>
        (d, minOpt ((groupOf df d).map LapRecord.duration_sector_1),
            minOpt ((groupOf df d).map LapRecord.duration_sector_2),
            minOpt ((groupOf df d).map LapRecord.duration_sector_3)))
    (innerMergeRows (innerMergeRows best_laps mean_speeds) best_sectors).map
      (fun x =>
        (x.1,
         { best_lap_duration := x.2.1.1
           mean_i1_speed := x.2.1.2.1
           mean_i2_speed := x.2.1.2.2.1
           mean_st_speed := x.2.1.2.2.2
           best_sector_1 := x.2.2.1
           best_sector_2 := x.2.2.2.1
           best_sector_3 := x.2.2.2.2 }))

/-- The non-key columns of a `drivers_df` row (DriverIdentity). -/
structure DriverFields where
  full_name : String
  team_name : String
  headshot_url : String
deriving DecidableEq

/-- The non-key columns of a `results_df` row (SessionResult); each cell may
still be `NaN` (e.g. `position` of a non-classified driver). -/
structure ResultFields where
  position : Option ℤ
  points : Option ℚ
  time_gap : Option ℚ
  number_of_laps : Option ℤ
deriving DecidableEq

/-- Pandas `merge(on=key, how='left')` over keyed tables, with a caller
supplied key comparison: each left row is kept, in order, expanded by its
matches; a row with no match gets `NaN` (`none`) for the right columns. -/
def leftMergeRows {κ α β : Type} (eqk : κ → κ → Bool)
    (left : List (κ × α)) (right : List (κ × β)) : List (κ × α × Option β) :=
  left.flatMap (fun ka =>
    match right.filter (fun kb => eqk kb.1 ka.1) with
    | [] => [(ka.1, ka.2, none)]
    | b :: bs => (b :: bs).map (fun kb => (ka.1, ka.2, some kb.2)))

/-- One row of `monitoring_df`: join key, driver columns, the optional
matched result columns and the optional matched lap-aggregate columns. -/
abbrev RaceRow (κ : Type) := κ × (DriverFields × Option ResultFields) × Option AggFields

/-- The `position` cell of a `monitoring_df` row (`NaN` when the driver has
no matched result row or a `NaN` position). -/
def rowPosition {κ : Type} (r : RaceRow κ) : Option ℤ := r.2.1.2.bind ResultFields.position

/-- The `number_of_laps` cell of a `monitoring_df` row. -/
def rowLaps {κ : Type} (r : RaceRow κ) : Option ℤ := r.2.1.2.bind ResultFields.number_of_laps

/-- Pandas ascending sort key over an optional integer column with
`na_position='last'`: `NaN` compares above every present value. -/
def naKeyAsc (x : Option ℤ) : ℤ ×ₗ ℤ :=
  toLex (match x with | none => (1, 0) | some p => (0, p))

/-- Pandas descending sort key over an optional integer column with
`na_position='last'`: present values are negated, `NaN` stays last. -/
def naKeyDesc (x : Option ℤ) : ℤ ×ₗ ℤ :=
  toLex (match x with | none => (1, 0) | some n => (0, -n))

/-- Sort key of `sort_values(by=['position', 'number_of_laps'],
ascending=[True, False])`. -/
def raceKey {κ : Type} (r : RaceRow κ) : (ℤ ×ₗ ℤ) ×ₗ (ℤ ×ₗ ℤ) :=
  toLex (naKeyAsc (rowPosition r), naKeyDesc (rowLaps r))

/-- Row comparison used by `build_race_df`'s sort. -/
def raceLE {κ : Type} (a b : RaceRow κ) : Prop := raceKey a ≤ raceKey b

instance {κ : Type} : DecidableRel (raceLE (κ := κ)) :=
  fun a b => inferInstanceAs (Decidable (raceKey a ≤ raceKey b))

instance {κ : Type} : IsTotal (RaceRow κ) raceLE :=
  ⟨fun a b => le_total (raceKey a) (raceKey b)⟩

instance {κ : Type} : IsTrans (RaceRow κ) raceLE :=
  ⟨fun _ _ _ h h2 => le_trans h h2⟩

/-- The kind of `st.column_config` entry used for a column. -/
inductive ColKind where
  | number
  | image
  | text
  | time
deriving DecidableEq

/-- The display metadata of one column, from the `st.column_config` call:
label, width, numeric format string, help text and pin state. -/
structure ColumnConfig where
  kind : ColKind
  label : String
  width : Option String := none
  format : Option String := none
  help : Option String := none
  pinned : Bool := false
deriving DecidableEq

/-- The `config` dictionary built by `build_race_df`, in source order. -/
def config : List (String × ColumnConfig) :=
  [("position",
    { kind := .number, label := "Position", width := some "small", format := some "%d",
      help := some "Position of the driver", pinned := true }),
   ("headshot_url",
    { kind := .image, label := "Headshot", width := some "small", pinned := true }),
   ("full_name",
    { kind := .text, label := "Driver", help := some "Full name of the driver", pinned := true }),
   ("team_name",
    { kind := .text, label := "Team", help := some "Team name of the driver" }),
   ("points",
    { kind := .number, label := "Points", width := some "small", format := some "%d",
      help := some "Points scored by the driver" }),
   ("time_gap",
    { kind := .time, label := "Time Gap", format := some "iso8601",
      help := some "Time gap from the leader" }),
   ("number_of_laps",
    { kind := .number, label := "Laps", width := some "small", format := some "%d",
      help := some "Number of laps completed by the driver" }),
   ("best_lap_duration",
    { kind := .number, label := "Best Lap Duration", format := some "%.3f",
      help := some "Best lap duration of the driver" }),
   ("mean_i1_speed",
    { kind := .number, label := "Mean Interval 1 Speed", format := some "%.2f",
      help := some "The mean speed of the car, in km/h, at the first intermediate point on the track." }),
   ("mean_i2_speed",
    { kind := .number, label := "Mean Interval 2 Speed", format := some "%.2f",
      help := some "The mean speed of the car, in km/h, at the second intermediate point on the track." }),
   ("mean_st_speed",
    { kind := .number, label := "Mean ST Speed", format := some "%.2f",
      help := some "The mean speed of the car, in km/h, at the speed trap, which is a specific point on the track where the highest speeds are usually recorded." }),
   ("best_sector_1",
    { kind := .number, label := "Best Sector 1", format := some "%.3f",
      help := some "Best time in sector 1" }),
   ("best_sector_2",
    { kind := .number, label := "Best Sector 2", format := some "%.3f",
      help := some "Best time in sector 2" }),
   ("best_sector_3",
    { kind := .number, label := "Best Sector 3", format := some "%.3f",
      help := some "Best time in sector 3" })]

/-- The `col_order` list returned by `build_race_df`, in source order. -/
def col_order : List String :=
  ["position", "headshot_url", "full_name",
   "team_name", "points", "time_gap", "best_lap_duration",
   "best_sector_1", "best_sector_2", "best_sector_3",
   "mean_i1_speed", "mean_i2_speed", "mean_st_speed",
   "number_of_laps"]

/-- Dictionary lookup in a column-config list (the `config` dict is keyed
by column name). -/
def cfgOf (cfg : List (String × ColumnConfig)) (c : String) : Option ColumnConfig :=
  (cfg.find? (fun p => p.1 == c)).map Prod.snd

/-- `build_race_df` (RaceTableAssembler) with well-typed integer join keys:
left-join drivers with results, left-join the intermediate with the lap
aggregates, sort by (`position` asc, `number_of_laps` desc, `NaN` last) and
return the table together with the display config and the column order. -/
def build_race_df (drivers_df : List (ℤ × DriverFields))
    (times_df : List (ℤ × AggFields)) (results_df : List (ℤ × ResultFields)) :
    List (RaceRow ℤ) × List (String × ColumnConfig) × List String :=
  let merged_df := leftMergeRows (fun a b => a == b) drivers_df results_df
  let monitoring_df := leftMergeRows (fun a b => a == b) merged_df times_df
  (List.insertionSort raceLE monitoring_df, config, col_order)

/-! ### The dtype-aware embedding of `build_race_df`

The join keys of the source's DataFrames are dynamically typed.  To settle
the claim about mismatched key types, the key column is embedded at the
pandas level: a Python value together with the column's dtype, and `merge`
performs the dtype compatibility check pandas runs before joining (raising
`ValueError` when exactly one of the two key columns is numeric). -/

/-- A Python cell value; `pyNA` is pandas `NaN`/missing. -/
inductive PyVal where
  | pyInt (i : ℤ)
  | pyFloat (q : ℚ)
  | pyStr (s : String)
  | pyNA
deriving DecidableEq

/-- Python `==` on cell values: numbers compare by value across `int` and
`float`, values of different types are unequal, and `NaN` equals nothing. -/
def pyEq : PyVal → PyVal → Bool
  | .pyInt i, .pyInt j => i == j
  | .pyInt i, .pyFloat q => (i : ℚ) == q
  | .pyFloat q, .pyInt i => q == (i : ℚ)
  | .pyFloat q, .pyFloat r => q == r
  | .pyStr s, .pyStr t => s == t
  | _, _ => false

/-- The dtype of a key column. -/
inductive Dtype where
  | int64
  | float64
  | object
deriving DecidableEq

/-- Whether a dtype is numeric (pandas `is_numeric_dtype`). -/
def Dtype.isNumeric : Dtype → Bool
  | .int64 => true
  | .float64 => true
  | .object => false

/-- The dtype of the key column of a merged table. -/
def combineDtype (l r : Dtype) : Dtype := if l = r then l else .float64

/-- A keyed table whose key column carries its dtype. -/
structure DTable (α : Type) where
  dt : Dtype
  rows : List (PyVal × α)

/-- Pandas `merge(on=key, how='left')` at the dtype level: raise
`ValueError` when exactly one key column is numeric, otherwise left-join
with Python value equality. -/
def pdLeftMerge {α β : Type} (l : DTable α) (r : DTable β) :
    Except String (DTable (α × Option β)) :=
  if l.dt.isNumeric != r.dt.isNumeric then
    Except.error "ValueError: you are trying to merge on incompatible dtype columns"
  else
    Except.ok ⟨combineDtype l.dt r.dt, leftMergeRows pyEq l.rows r.rows⟩

/-- `build_race_df` with dtype-carrying join-key columns: the same two left
joins and sort, but each `merge` may raise on incompatible key dtypes. -/
def build_race_df_dt (drivers_df : DTable DriverFields)
    (times_df : DTable AggFields) (results_df : DTable ResultFields) :
    Except String (List (RaceRow PyVal) × List (String × ColumnConfig) × List String) :=
  match pdLeftMerge drivers_df results_df with
  | Except.error e => Except.error e
  | Except.ok merged_df =>
    match pdLeftMerge merged_df times_df with
    | Except.error e => Except.error e
    | Except.ok monitoring_df =>
      Except.ok (List.insertionSort raceLE monitoring_df.rows, config, col_order)

/-! ### The schema-aware embedding of `process_lap_data`

To settle the claim about structurally missing columns, the filter stage is
also embedded over an untyped DataFrame: a column-name list plus rows of
Python cells.  Reading a column absent from the schema raises `KeyError`;
pandas `df.empty` is true when either axis has length zero. -/

/-- Pandas `notna` on a cell. -/
def notna : PyVal → Bool
  | .pyNA => false
  | _ => true

/-- The numeric value of a cell (0 for non-numbers; only used to order
cells of equal rank). -/
def pvNum : PyVal → ℚ
  | .pyInt i => (i : ℚ)
  | .pyFloat q => q
  | _ => 0

/-- Sort rank of a cell: numbers, then strings, then `NaN`
(`na_position='last'`). -/
def pvRank : PyVal → ℕ
  | .pyInt _ => 0
  | .pyFloat _ => 0
  | .pyStr _ => 1
  | .pyNA => 2

/-- A total comparison on cells: by rank, then by value. -/
def pvLE (a b : PyVal) : Bool :=
  if pvRank a = pvRank b then
    match a, b with
    | .pyStr s, .pyStr t => decide (s < t) || s == t
    | x, y => decide (pvNum x ≤ pvNum y)
  else decide (pvRank a < pvRank b)

/-- An untyped DataFrame: the column names and the rows of cells. -/
structure RawDF where
  cols : List String
  rows : List (List PyVal)
deriving DecidableEq

/-- Comparison of two raw rows by the cells at positions `j` then `k`
(the `sort_values(['driver_number', 'lap_number'])` key). -/
def rowKeyLE (j k : ℕ) (r1 r2 : List PyVal) : Bool :=
  let a1 := r1.getD j .pyNA
  let a2 := r2.getD j .pyNA
  if a1 = a2 then pvLE (r1.getD k .pyNA) (r2.getD k .pyNA)
  else pvLE a1 a2

/-- `process_lap_data` over an untyped DataFrame: return an empty frame
unchanged before reading any column; otherwise read `lap_duration` (raising
`KeyError` when the schema lacks it), filter the rows whose cell is
present, and sort by the `driver_number` and `lap_number` columns (raising
`KeyError` when the schema lacks them). -/
def process_lap_data_raw (df : RawDF) : Except String RawDF :=
  if df.rows.isEmpty || df.cols.isEmpty then Except.ok df
  else
    match df.cols.findIdx? (fun c => c == "lap_duration") with
    | none => Except.error "KeyError: lap_duration"
    | some i =>
      let filtered := df.rows.filter (fun row => notna (row.getD i .pyNA))
      match df.cols.findIdx? (fun c => c == "driver_number"),
            df.cols.findIdx? (fun c => c == "lap_number") with
      | none, _ => Except.error "KeyError: driver_number"
      | some _, none => Except.error "KeyError: lap_number"
      | some j, some k =>
        Except.ok { cols := df.cols,
                    rows := List.insertionSort (fun r1 r2 => rowKeyLE j k r1 r2 = true) filtered }

/-- Whether a cell is a Python `int`. -/
def isIntCell : PyVal → Bool
  | .pyInt _ => true
  | _ => false

/-- Whether a cell is a Python `str`. -/
def isStrCell : PyVal → Bool
  | .pyStr _ => true
  | _ => false

/-- The row order the specification claims for `build_race_df`'s output:
present positions ascend and precede absent ones, and rows agreeing on
`position` (both present and equal, or both absent) carry descending
`number_of_laps`. -/
def raceOrdered {κ : Type} (a b : RaceRow κ) : Prop :=
  (rowPosition a = none → rowPosition b = none) ∧
  (∀ p q : ℤ, rowPosition a = some p → rowPosition b = some q → p ≤ q) ∧
  (rowPosition a = rowPosition b →
    ∀ x y : ℤ, rowLaps a = some x → rowLaps b = some y → y ≤ x)

/-- The row order the specification claims for the filter stage's output:
ascending `driver_number`, then ascending `lap_number`. -/
def lapOrdered (a b : LapRecord) : Prop :=
  a.driver_number < b.driver_number ∨
    (a.driver_number = b.driver_number ∧ a.lap_number ≤ b.lap_number)

/-- `o` is the minimum of the list `ps`: `none` exactly when `ps` is empty,
otherwise a member of `ps` below all of `ps`. -/
def isMinOf (o : Option ℚ) (ps : List ℚ) : Prop :=
  match o with
  | none => ps = []
  | some m => m ∈ ps ∧ ∀ x ∈ ps, m ≤ x

/-- Concrete laps used as test inputs, from the specification's scenario:
driver 1, lap 1 of 90.5s and lap 2 of 89.0s (the lap with absent duration
is dropped by the filter upstream of the extractors). -/
def specLap1 : LapRecord :=
  ⟨1, 1, some (181 / 2), some 30, some 30, some (61 / 2), some 200, some 210, some 220⟩

/-- Second lap of the specification's scenario. -/
def specLap2 : LapRecord :=
  ⟨1, 2, some 89, some 29, some 30, some 30, some 205, some 215, some 225⟩

/-- A lap with present duration but absent `duration_sector_2` and
`i2_speed`, to exercise the absent-sample exclusion of the aggregates. -/
def aggLap1 : LapRecord :=
  ⟨1, 1, some 91, some 30, some 30, some 31, some 200, some 210, some 220⟩

/-- Companion lap for the aggregate witnesses. -/
def aggLap2 : LapRecord :=
  ⟨1, 2, some 89, some 29, none, some 30, some 205, none, some 225⟩

/-! ### Lemmas about the left join -/

/-- A row of a left merge reproduces the key and payload of a left row. -/
lemma leftMergeRows_src {κ α β : Type} (eqk : κ → κ → Bool)
    (left : List (κ × α)) (right : List (κ × β)) (r : κ × α × Option β)
    (h : r ∈ leftMergeRows eqk left right) :
    ∃ a ∈ left, r.1 = a.1 ∧ r.2.1 = a.2 := by
  simp only [leftMergeRows, List.mem_flatMap] at h
  obtain ⟨a, ha, hr⟩ := h
  refine ⟨a, ha, ?_⟩
  cases hF : right.filter (fun kb => eqk kb.1 a.1) with
  | nil =>
    rw [hF] at hr
    change r ∈ [(a.1, a.2, none)] at hr
    rw [List.mem_singleton] at hr
    subst hr; exact ⟨rfl, rfl⟩
  | cons b bs =>
    rw [hF] at hr
    change r ∈ (b :: bs).map (fun kb => (a.1, a.2, some kb.2)) at hr
    rw [List.mem_map] at hr
    obtain ⟨kb, _, hkb⟩ := hr
    subst hkb; exact ⟨rfl, rfl⟩

/-- A row of a left merge whose key matches no right key has `none` in the
right columns. -/
lemma leftMergeRows_nomatch_none {κ α β : Type} (eqk : κ → κ → Bool)
    (left : List (κ × α)) (right : List (κ × β)) (r : κ × α × Option β)
    (h : r ∈ leftMergeRows eqk left right)
    (hnm : ∀ b ∈ right, eqk b.1 r.1 = false) : r.2.2 = none := by
  simp only [leftMergeRows, List.mem_flatMap] at h
  obtain ⟨a, _, hr⟩ := h
  cases hF : right.filter (fun kb => eqk kb.1 a.1) with
  | nil =>
    rw [hF] at hr
    change r ∈ [(a.1, a.2, none)] at hr
    rw [List.mem_singleton] at hr
    subst hr; rfl
  | cons b bs =>
    rw [hF] at hr
    change r ∈ (b :: bs).map (fun kb => (a.1, a.2, some kb.2)) at hr
    rw [List.mem_map] at hr
    obtain ⟨kb, hkbm, hkb⟩ := hr
    have hkbf : kb ∈ right.filter (fun x => eqk x.1 a.1) := by
      rw [hF]; exact hkbm
    have h1 := List.of_mem_filter hkbf
    have h2 : eqk kb.1 r.1 = false := hnm kb (List.mem_of_mem_filter hkbf)
    have hra : r.1 = a.1 := by rw [← hkb]
    rw [hra] at h2
    have h1' : eqk kb.1 a.1 = true := h1
    rw [h2] at h1'
    exact absurd h1' (by simp)

/-- When no left key matches any right key, a left merge just appends a
`none` column to every left row. -/
lemma leftMergeRows_all_nomatch {κ α β : Type} (eqk : κ → κ → Bool)
    (left : List (κ × α)) (right : List (κ × β))
    (hnm : ∀ a ∈ left, ∀ b ∈ right, eqk b.1 a.1 = false) :
    leftMergeRows eqk left right = left.map (fun a => (a.1, a.2, none)) := by
  induction left with
  | nil => rfl
  | cons a as ih =>
    have hF : right.filter (fun kb => eqk kb.1 a.1) = [] := by
      apply List.filter_eq_nil_iff.mpr
      intro b hb
      simp [hnm a (List.mem_cons_self a as) b hb]
    simp only [leftMergeRows, List.flatMap_cons, List.map_cons] at *
    rw [hF]
    simp only [List.isEmpty_nil, if_true, List.singleton_append]
    rw [ih (fun x hx => hnm x (List.mem_cons_of_mem a hx))]

/-- Keys and payloads of a left merge with `Nodup` right keys: dropping the
matched column gives back exactly the left table. -/
lemma leftMergeRows_proj {κ α β : Type} (eqk : κ → κ → Bool)
    (heq : ∀ a b : κ, eqk a b = true ↔ a = b)
    (left : List (κ × α)) (right : List (κ × β))
    (hr : (right.map Prod.fst).Nodup) :
    (leftMergeRows eqk left right).map (fun r => (r.1, r.2.1)) = left := by
  induction left with
  | nil => rfl
  | cons a as ih =>
    simp only [leftMergeRows, List.flatMap_cons, List.map_append] at *
    rw [ih]
    cases hF : right.filter (fun kb => eqk kb.1 a.1) with
    | nil => simp [hF]
    | cons b bs =>
      have hbs : bs = [] := by
        cases bs with
        | nil => rfl
        | cons c cs =>
          exfalso
          have hsub : (right.filter (fun kb => eqk kb.1 a.1)).Sublist right :=
            List.filter_sublist right
          rw [hF] at hsub
          have hnod : ((b :: c :: cs).map Prod.fst).Nodup :=
            (hsub.map Prod.fst).nodup hr
          have hb : b ∈ right.filter (fun kb => eqk kb.1 a.1) := by
            rw [hF]; exact List.mem_cons_self b (c :: cs)
          have hc : c ∈ right.filter (fun kb => eqk kb.1 a.1) := by
            rw [hF]; exact List.mem_cons_of_mem b (List.mem_cons_self c cs)
          have hb' := List.of_mem_filter hb
          have hc' := List.of_mem_filter hc
          have hbk : b.1 = a.1 := (heq _ _).mp hb'
          have hck : c.1 = a.1 := (heq _ _).mp hc'
          simp only [List.map_cons, List.nodup_cons, List.mem_cons] at hnod
          exact hnod.1 (Or.inl (hbk.trans hck.symm))
      subst hbs
      simp [hF]

/-! ### The sort order of `build_race_df` -/

lemma naKeyAsc_eq_iff (x y : Option ℤ) : naKeyAsc x = naKeyAsc y ↔ x = y := by
  cases x <;> cases y <;> simp [naKeyAsc]

lemma naKeyAsc_lt_none (x : ℤ) (h : naKeyAsc none < naKeyAsc (some x)) : False := by
  simp [naKeyAsc, Prod.Lex.lt_iff] at h

lemma naKeyAsc_lt_some {p q : ℤ} (h : naKeyAsc (some p) < naKeyAsc (some q)) : p < q := by
  simp [naKeyAsc, Prod.Lex.lt_iff] at h
  omega

lemma naKeyDesc_le_some {x y : ℤ} (h : naKeyDesc (some x) ≤ naKeyDesc (some y)) : y ≤ x := by
  simp [naKeyDesc, Prod.Lex.le_iff] at h
  omega

/-- The sort comparison implies the claimed row order. -/
lemma raceLE_ordered {κ : Type} {a b : RaceRow κ} (h : raceLE a b) : raceOrdered a b := by
  rw [raceLE, raceKey, raceKey, Prod.Lex.le_iff] at h
  refine ⟨?_, ?_, ?_⟩
  · intro hpa
    rw [hpa] at h
    cases hpb : rowPosition b with
    | none => rfl
    | some q =>
      rw [hpb] at h
      rcases h with h | ⟨h, _⟩
      · exact absurd h (fun hlt => naKeyAsc_lt_none q hlt)
      · rw [naKeyAsc_eq_iff] at h
        exact absurd h (by simp)
  · intro p q hpa hpb
    rw [hpa, hpb] at h
    rcases h with h | ⟨h, _⟩
    · exact le_of_lt (naKeyAsc_lt_some h)
    · rw [naKeyAsc_eq_iff] at h
      simp at h
      omega
  · intro hpq x y hla hlb
    rw [hpq] at h
    rcases h with h | ⟨_, h⟩
    · exact absurd h (lt_irrefl _)
    · rw [hla, hlb] at h
      exact naKeyDesc_le_some h

/-! ### Claims C1, C2, C8, C9 (the typed race table) -/

/-- Claim C1: `build_race_df` is a strict left join keyed on
`driver_number`: when the result and lap-aggregate tables have unique keys
(the data model's one-row-per-driver shape), every driver row appears
exactly once in the output — as a multiset, projecting the output back to
its key and driver columns is a permutation of the drivers table — and a
row whose key matches no result row (resp. no lap-aggregate row) carries
`none` for that side's columns rather than being dropped. -/
theorem build_race_df_left_join
    (drivers_df : List (ℤ × DriverFields)) (times_df : List (ℤ × AggFields))
    (results_df : List (ℤ × ResultFields))
    (hr : (results_df.map Prod.fst).Nodup) (ht : (times_df.map Prod.fst).Nodup) :
    List.Perm
      ((build_race_df drivers_df times_df results_df).1.map (fun r => (r.1, r.2.1.1)))
      drivers_df ∧
    ∀ r ∈ (build_race_df drivers_df times_df results_df).1,
      ((∀ s ∈ results_df, s.1 ≠ r.1) → r.2.1.2 = none) ∧
      ((∀ t ∈ times_df, t.1 ≠ r.1) → r.2.2 = none) := by
  have heq : ∀ a b : ℤ, (a == b) = true ↔ a = b := fun a b => beq_iff_eq
  have hperm :
      List.Perm (build_race_df drivers_df times_df results_df).1
        (leftMergeRows (fun a b : ℤ => a == b)
          (leftMergeRows (fun a b : ℤ => a == b) drivers_df results_df) times_df) :=
    List.perm_insertionSort _ _
  constructor
  · have e1 :
        (leftMergeRows (fun a b : ℤ => a == b)
            (leftMergeRows (fun a b : ℤ => a == b) drivers_df results_df) times_df).map
          (fun r => (r.1, r.2.1)) =
        leftMergeRows (fun a b : ℤ => a == b) drivers_df results_df :=
      leftMergeRows_proj _ heq _ _ ht
    have e2 :
        (leftMergeRows (fun a b : ℤ => a == b) drivers_df results_df).map
          (fun m => (m.1, m.2.1)) = drivers_df :=
      leftMergeRows_proj _ heq _ _ hr
    have hcomp : (fun r : RaceRow ℤ => (r.1, r.2.1.1)) =
        (fun m : ℤ × DriverFields × Option ResultFields => (m.1, m.2.1)) ∘
          (fun r : RaceRow ℤ => (r.1, r.2.1)) := rfl
    have e3 :
        (leftMergeRows (fun a b : ℤ => a == b)
            (leftMergeRows (fun a b : ℤ => a == b) drivers_df results_df) times_df).map
          (fun r => (r.1, r.2.1.1)) = drivers_df := by
      rw [hcomp, ← List.map_map, e1, e2]
    have h4 := hperm.map (fun r : RaceRow ℤ => (r.1, r.2.1.1))
    rw [e3] at h4
    exact h4
  · intro r hrm
    have hrmem := hperm.mem_iff.mp hrm
    constructor
    · intro hnone
      obtain ⟨m, hm, h1, h2⟩ := leftMergeRows_src _ _ _ _ hrmem
      have hm22 : m.2.2 = none := by
        apply leftMergeRows_nomatch_none _ _ _ m hm
        intro s hs
        have : s.1 ≠ m.1 := h1 ▸ hnone s hs
        simpa using this
      rw [h2]
      exact hm22
    · intro hnone
      apply leftMergeRows_nomatch_none _ _ _ r hrmem
      intro t htm
      simpa using hnone t htm

/-- Witness for C1, the spec's concrete scenario: drivers {1, 2}, a result
row only for driver 1, aggregate rows for both. -/
theorem build_race_df_left_join_witness :
    ([((1 : ℤ), ResultFields.mk (some 1) (some 25) (some 0) (some 57))].map Prod.fst).Nodup ∧
    ([((1 : ℤ), AggFields.mk (some 89) (some 200) (some 210) (some 220) (some 29) (some 30) (some 30)),
      ((2 : ℤ), AggFields.mk (some 90) (some 201) (some 211) (some 221) (some 30) (some 31) (some 31))].map
        Prod.fst).Nodup ∧
    (List.Perm
      ((build_race_df
          [((1 : ℤ), DriverFields.mk "Max Verstappen" "Red Bull Racing" "u1"),
           ((2 : ℤ), DriverFields.mk "Lando Norris" "McLaren" "u2")]
          [((1 : ℤ), AggFields.mk (some 89) (some 200) (some 210) (some 220) (some 29) (some 30) (some 30)),
           ((2 : ℤ), AggFields.mk (some 90) (some 201) (some 211) (some 221) (some 30) (some 31) (some 31))]
          [((1 : ℤ), ResultFields.mk (some 1) (some 25) (some 0) (some 57))]).1.map
        (fun r => (r.1, r.2.1.1)))
      [((1 : ℤ), DriverFields.mk "Max Verstappen" "Red Bull Racing" "u1"),
       ((2 : ℤ), DriverFields.mk "Lando Norris" "McLaren" "u2")] ∧
     ∀ r ∈ (build_race_df
          [((1 : ℤ), DriverFields.mk "Max Verstappen" "Red Bull Racing" "u1"),
           ((2 : ℤ), DriverFields.mk "Lando Norris" "McLaren" "u2")]
          [((1 : ℤ), AggFields.mk (some 89) (some 200) (some 210) (some 220) (some 29) (some 30) (some 30)),
           ((2 : ℤ), AggFields.mk (some 90) (some 201) (some 211) (some 221) (some 30) (some 31) (some 31))]
          [((1 : ℤ), ResultFields.mk (some 1) (some 25) (some 0) (some 57))]).1,
      ((∀ s ∈ [((1 : ℤ), ResultFields.mk (some 1) (some 25) (some 0) (some 57))], s.1 ≠ r.1) →
        r.2.1.2 = none) ∧
      ((∀ t ∈ [((1 : ℤ), AggFields.mk (some 89) (some 200) (some 210) (some 220) (some 29) (some 30) (some 30)),
               ((2 : ℤ), AggFields.mk (some 90) (some 201) (some 211) (some 221) (some 30) (some 31) (some 31))],
          t.1 ≠ r.1) → r.2.2 = none)) :=
  ⟨by decide, by decide, build_race_df_left_join _ _ _ (by decide) (by decide)⟩

/-- Claim C2: the rows of `build_race_df`'s output are pairwise in the
claimed order — ascending by `position`, all absent positions strictly
after all present ones, and descending `number_of_laps` among rows tied on
`position` and among the absent-position rows. -/
theorem build_race_df_sort_order
    (drivers_df : List (ℤ × DriverFields)) (times_df : List (ℤ × AggFields))
    (results_df : List (ℤ × ResultFields)) :
    List.Pairwise raceOrdered (build_race_df drivers_df times_df results_df).1 :=
  List.Pairwise.imp (fun h => raceLE_ordered h)
    (List.sorted_insertionSort raceLE
      (leftMergeRows (fun a b : ℤ => a == b)
        (leftMergeRows (fun a b : ℤ => a == b) drivers_df results_df) times_df))

/-- Claim C8: each pipeline stage maps an empty input to an empty result
(for the best-lap extractor, `some []`: the empty table, not the `none`
that models a raised error). -/
theorem empty_input_empty_output :
    process_lap_data [] = [] ∧
    get_best_lap_times [] = some [] ∧
    get_race_lap_times [] = [] :=
  ⟨rfl, rfl, rfl⟩

/-- Claim C9: for every input, `build_race_df` returns the canonical column
order and the fixed display metadata: `%d` for `position`, `points` and
`number_of_laps`; `%.3f` for `best_lap_duration` and the three best
sectors; `%.2f` for the three mean speeds; ISO-8601 for `time_gap`; and
`position`, `headshot_url`, `full_name` pinned. -/
theorem build_race_df_columns
    (drivers_df : List (ℤ × DriverFields)) (times_df : List (ℤ × AggFields))
    (results_df : List (ℤ × ResultFields)) :
    (build_race_df drivers_df times_df results_df).2.2 =
      ["position", "headshot_url", "full_name",
       "team_name", "points", "time_gap", "best_lap_duration",
       "best_sector_1", "best_sector_2", "best_sector_3",
       "mean_i1_speed", "mean_i2_speed", "mean_st_speed",
       "number_of_laps"] ∧
    (cfgOf (build_race_df drivers_df times_df results_df).2.1 "position").bind
      ColumnConfig.format = some "%d" ∧
    (cfgOf (build_race_df drivers_df times_df results_df).2.1 "points").bind
      ColumnConfig.format = some "%d" ∧
    (cfgOf (build_race_df drivers_df times_df results_df).2.1 "number_of_laps").bind
      ColumnConfig.format = some "%d" ∧
    (cfgOf (build_race_df drivers_df times_df results_df).2.1 "best_lap_duration").bind
      ColumnConfig.format = some "%.3f" ∧
    (cfgOf (build_race_df drivers_df times_df results_df).2.1 "best_sector_1").bind
      ColumnConfig.format = some "%.3f" ∧
    (cfgOf (build_race_df drivers_df times_df results_df).2.1 "best_sector_2").bind
      ColumnConfig.format = some "%.3f" ∧
    (cfgOf (build_race_df drivers_df times_df results_df).2.1 "best_sector_3").bind
      ColumnConfig.format = some "%.3f" ∧
    (cfgOf (build_race_df drivers_df times_df results_df).2.1 "mean_i1_speed").bind
      ColumnConfig.format = some "%.2f" ∧
    (cfgOf (build_race_df drivers_df times_df results_df).2.1 "mean_i2_speed").bind
      ColumnConfig.format = some "%.2f" ∧
    (cfgOf (build_race_df drivers_df times_df results_df).2.1 "mean_st_speed").bind
      ColumnConfig.format = some "%.2f" ∧
    (cfgOf (build_race_df drivers_df times_df results_df).2.1 "time_gap").bind
      ColumnConfig.format = some "iso8601" ∧
    (cfgOf (build_race_df drivers_df times_df results_df).2.1 "position").map
      ColumnConfig.pinned = some true ∧
    (cfgOf (build_race_df drivers_df times_df results_df).2.1 "headshot_url").map
      ColumnConfig.pinned = some true ∧
    (cfgOf (build_race_df drivers_df times_df results_df).2.1 "full_name").map
      ColumnConfig.pinned = some true :=
  ⟨rfl, rfl, rfl, rfl, rfl, rfl, rfl, rfl, rfl, rfl, rfl, rfl, rfl, rfl, rfl⟩

/-! ### Claims C7 and C10 (degraded and raw-schema behavior) -/

lemma pyEq_false_of_str_int {b a : PyVal} (hb : isStrCell b = true)
    (ha : isIntCell a = true) : pyEq b a = false := by
  cases b <;> cases a <;> simp_all [isStrCell, isIntCell, pyEq]

/-- Counterexample to claim C7 as stated: on input tables whose
`driver_number` key columns have mismatched, non-comparable types — here an
`int64` key column joined against `object` columns of strings — the
pipeline does not complete and return a table: the first merge raises
`ValueError`. -/
theorem build_race_df_dt_mismatch_counterexample :
    build_race_df_dt
        ⟨Dtype.int64, [(PyVal.pyInt 1, ⟨"Max Verstappen", "Red Bull Racing", "u1"⟩)]⟩
        ⟨Dtype.object,
         [(PyVal.pyStr "1", ⟨some 89, some 200, some 210, some 220, some 29, some 30, some 30⟩)]⟩
        ⟨Dtype.object, [(PyVal.pyStr "1", ⟨some 1, some 25, some 0, some 57⟩)]⟩ =
      Except.error "ValueError: you are trying to merge on incompatible dtype columns" := rfl

/-- Claim C7 as amended: when the mismatch of the `driver_number` key types
is at the value level — all three key columns are `object`-typed, the
driver keys are Python ints and the result and aggregate keys are Python
strings — `build_race_df` does not raise: both joins degrade to no-match,
every row carries `none` for the result and aggregate columns, and the run
completes and returns a table.  (When instead one key column's dtype is
numeric and another's is not, pandas `merge` raises `ValueError`, as the
counterexample shows.) -/
theorem build_race_df_dt_object_degrades
    (drivers_df : DTable DriverFields) (times_df : DTable AggFields)
    (results_df : DTable ResultFields)
    (hd : drivers_df.dt = Dtype.object) (ht : times_df.dt = Dtype.object)
    (hr : results_df.dt = Dtype.object)
    (hdk : ∀ p ∈ drivers_df.rows, isIntCell p.1 = true)
    (hrk : ∀ p ∈ results_df.rows, isStrCell p.1 = true)
    (htk : ∀ p ∈ times_df.rows, isStrCell p.1 = true) :
    ∃ tbl, build_race_df_dt drivers_df times_df results_df =
        Except.ok (tbl, config, col_order) ∧
      tbl.length = drivers_df.rows.length ∧
      ∀ r ∈ tbl, r.2.1.2 = none ∧ r.2.2 = none := by
  obtain ⟨ddt, drows⟩ := drivers_df
  obtain ⟨tdt, trows⟩ := times_df
  obtain ⟨rdt, rrows⟩ := results_df
  simp only at hd ht hr hdk hrk htk
  subst hd ht hr
  have e1 : leftMergeRows pyEq drows rrows =
      drows.map (fun a => (a.1, a.2, (none : Option ResultFields))) :=
    leftMergeRows_all_nomatch pyEq drows rrows
      (fun a ha b hb => pyEq_false_of_str_int (hrk b hb) (hdk a ha))
  have hm1 : pdLeftMerge (⟨Dtype.object, drows⟩ : DTable DriverFields)
      (⟨Dtype.object, rrows⟩ : DTable ResultFields) =
      Except.ok ⟨Dtype.object, drows.map (fun a => (a.1, a.2, (none : Option ResultFields)))⟩ := by
    simp [pdLeftMerge, Dtype.isNumeric, combineDtype, e1]
  have e2 : leftMergeRows pyEq
      (drows.map (fun a => (a.1, a.2, (none : Option ResultFields)))) trows =
      (drows.map (fun a => (a.1, a.2, (none : Option ResultFields)))).map
        (fun a => (a.1, a.2, (none : Option AggFields))) := by
    apply leftMergeRows_all_nomatch
    intro a ha b hb
    rw [List.mem_map] at ha
    obtain ⟨a0, ha0, haa⟩ := ha
    apply pyEq_false_of_str_int (htk b hb)
    rw [← haa]
    exact hdk a0 ha0
  have hm2 : pdLeftMerge
      (⟨Dtype.object, drows.map (fun a => (a.1, a.2, (none : Option ResultFields)))⟩ :
        DTable (DriverFields × Option ResultFields))
      (⟨Dtype.object, trows⟩ : DTable AggFields) =
      Except.ok ⟨Dtype.object,
        (drows.map (fun a => (a.1, a.2, (none : Option ResultFields)))).map
          (fun a => (a.1, a.2, (none : Option AggFields)))⟩ := by
    simp [pdLeftMerge, Dtype.isNumeric, combineDtype, e2]
  refine ⟨List.insertionSort raceLE
    ((drows.map (fun a => (a.1, a.2, (none : Option ResultFields)))).map
      (fun a => (a.1, a.2, (none : Option AggFields)))), ?_, ?_, ?_⟩
  · simp only [build_race_df_dt, hm1, hm2]
  · rw [(List.perm_insertionSort _ _).length_eq, List.length_map, List.length_map]
  · intro r hrmem
    have hmem2 : r ∈ (drows.map (fun a => (a.1, a.2, (none : Option ResultFields)))).map
        (fun a => (a.1, a.2, (none : Option AggFields))) :=
      (List.perm_insertionSort _ _).mem_iff.mp hrmem
    rw [List.map_map, List.mem_map] at hmem2
    obtain ⟨a, _, ha⟩ := hmem2
    rw [← ha]
    exact ⟨rfl, rfl⟩

/-- Witness for the amended C7: concrete `object`-typed tables with int
driver keys and string result/aggregate keys degrade to an all-null join. -/
theorem build_race_df_dt_object_degrades_witness :
    (DTable.mk Dtype.object
        [(PyVal.pyInt 1, DriverFields.mk "Max Verstappen" "Red Bull Racing" "u1")]).dt =
      Dtype.object ∧
    (∀ p ∈ (DTable.mk Dtype.object
        [(PyVal.pyInt 1, DriverFields.mk "Max Verstappen" "Red Bull Racing" "u1")]).rows,
      isIntCell p.1 = true) ∧
    ∃ tbl, build_race_df_dt
        (DTable.mk Dtype.object
          [(PyVal.pyInt 1, DriverFields.mk "Max Verstappen" "Red Bull Racing" "u1")])
        (DTable.mk Dtype.object
          [(PyVal.pyStr "1",
            AggFields.mk (some 89) (some 200) (some 210) (some 220) (some 29) (some 30) (some 30))])
        (DTable.mk Dtype.object
          [(PyVal.pyStr "1", ResultFields.mk (some 1) (some 25) (some 0) (some 57))]) =
        Except.ok (tbl, config, col_order) ∧
      tbl.length = (DTable.mk Dtype.object
        [(PyVal.pyInt 1, DriverFields.mk "Max Verstappen" "Red Bull Racing" "u1")]).rows.length ∧
      ∀ r ∈ tbl, r.2.1.2 = none ∧ r.2.2 = none :=
  ⟨rfl, by decide,
   build_race_df_dt_object_degrades _ _ _ rfl rfl rfl (by decide) (by decide) (by decide)⟩

/-- Claim C10: `process_lap_data` checks `df.empty` before reading any
column, so a rowless input frame — in particular one whose schema lacks
`lap_duration`, `driver_number` or `lap_number` entirely — is returned
unchanged and never raises; the `KeyError` branches are only reachable on
non-empty input. -/
theorem process_lap_data_raw_empty (df : RawDF) (h : df.rows = []) :
    process_lap_data_raw df = Except.ok df := by
  unfold process_lap_data_raw
  rw [h]
  simp

/-- Witness for C10: a rowless frame whose only column is `session_key` —
so all three required columns are structurally absent — comes back
unchanged. -/
theorem process_lap_data_raw_empty_witness :
    (RawDF.mk ["session_key"] []).rows = [] ∧
    process_lap_data_raw (RawDF.mk ["session_key"] []) =
      Except.ok (RawDF.mk ["session_key"] []) :=
  ⟨rfl, process_lap_data_raw_empty _ rfl⟩

/-! ### Lemmas about the lap pipeline -/

lemma mem_groupOf {df : List LapRecord} {d : ℤ} {x : LapRecord} :
    x ∈ groupOf df d ↔ x ∈ df ∧ x.driver_number = d := by
  simp [groupOf, List.mem_filter]

lemma groupKeys_nodup (df : List LapRecord) : (groupKeys df).Nodup :=
  (List.perm_insertionSort _ _).nodup_iff.mpr (List.nodup_dedup _)

lemma mem_groupKeys {df : List LapRecord} {d : ℤ} :
    d ∈ groupKeys df ↔ d ∈ df.map LapRecord.driver_number :=
  (List.perm_insertionSort _ _).mem_iff.trans List.mem_dedup

lemma argminDuration_cons_none {a : LapRecord} {rest : List LapRecord}
    (h : a.lap_duration = none) :
    argminDuration (a :: rest) = argminDuration rest := by
  simp only [argminDuration, h]

lemma argminDuration_cons_some {a : LapRecord} {rest : List LapRecord} {q : ℚ}
    (h : a.lap_duration = some q) :
    argminDuration (a :: rest) =
      match argminDuration rest with
      | none => some (a, q)
      | some (r2, q2) => if q ≤ q2 then some (a, q) else some (r2, q2) := by
  simp only [argminDuration, h]

lemma argminDuration_none {g : List LapRecord} (h : argminDuration g = none) :
    ∀ x ∈ g, x.lap_duration = none := by
  induction g with
  | nil => intro x hx; cases hx
  | cons a rest ih =>
    intro x hx
    cases hd : a.lap_duration with
    | none =>
      rw [argminDuration_cons_none hd] at h
      rcases List.mem_cons.mp hx with rfl | hx'
      · exact hd
      · exact ih h x hx'
    | some q =>
      exfalso
      rw [argminDuration_cons_some hd] at h
      cases hrec : argminDuration rest with
      | none => rw [hrec] at h; exact absurd h (by simp)
      | some p =>
        obtain ⟨r2, q2⟩ := p
        rw [hrec] at h
        change (if q ≤ q2 then some (a, q) else some (r2, q2)) = none at h
        by_cases hq : q ≤ q2
        · rw [if_pos hq] at h; exact absurd h (by simp)
        · rw [if_neg hq] at h; exact absurd h (by simp)

/-- What `idxmin` returns: the selected row has the minimal present
duration over the whole list, and every earlier row with the same present
duration requirement is strictly slower — it is the first minimizer. -/
lemma argminDuration_spec {g : List LapRecord} {r : LapRecord} {m : ℚ}
    (h : argminDuration g = some (r, m)) :
    r.lap_duration = some m ∧
    ∃ p s, g = p ++ r :: s ∧
      (∀ x ∈ g, ∀ q, x.lap_duration = some q → m ≤ q) ∧
      (∀ x ∈ p, ∀ q, x.lap_duration = some q → m < q) := by
  induction g generalizing r m with
  | nil => exact absurd h (by simp [argminDuration])
  | cons a rest ih =>
    cases hd : a.lap_duration with
    | none =>
      rw [argminDuration_cons_none hd] at h
      obtain ⟨h1, p, s, hps, hglob, hpre⟩ := ih h
      refine ⟨h1, a :: p, s, by rw [List.cons_append, hps], ?_, ?_⟩
      · intro x hx q hq
        rcases List.mem_cons.mp hx with rfl | hx'
        · rw [hd] at hq; cases hq
        · exact hglob x hx' q hq
      · intro x hx q hq
        rcases List.mem_cons.mp hx with rfl | hx'
        · rw [hd] at hq; cases hq
        · exact hpre x hx' q hq
    | some q0 =>
      rw [argminDuration_cons_some hd] at h
      cases hrec : argminDuration rest with
      | none =>
        rw [hrec] at h
        change some (a, q0) = some (r, m) at h
        have hpair : (a, q0) = (r, m) := Option.some.inj h
        have ha : a = r := congrArg Prod.fst hpair
        have hq0 : q0 = m := congrArg Prod.snd hpair
        subst ha; subst hq0
        refine ⟨hd, [], rest, rfl, ?_, by intro x hx; cases hx⟩
        intro x hx q hq
        rcases List.mem_cons.mp hx with rfl | hx'
        · rw [hd] at hq
          rw [Option.some.inj hq]
        · rw [argminDuration_none hrec x hx'] at hq; cases hq
      | some p2 =>
        obtain ⟨r2, q2⟩ := p2
        rw [hrec] at h
        change (if q0 ≤ q2 then some (a, q0) else some (r2, q2)) = some (r, m) at h
        obtain ⟨h1rec, prest, srest, hpsrest, hglobrest, hprerest⟩ := ih hrec
        by_cases hq : q0 ≤ q2
        · rw [if_pos hq] at h
          have hpair : (a, q0) = (r, m) := Option.some.inj h
          have ha : a = r := congrArg Prod.fst hpair
          have hq0 : q0 = m := congrArg Prod.snd hpair
          subst ha; subst hq0
          refine ⟨hd, [], rest, rfl, ?_, by intro x hx; cases hx⟩
          intro x hx q hqd
          rcases List.mem_cons.mp hx with rfl | hx'
          · rw [hd] at hqd
            rw [Option.some.inj hqd]
          · exact le_trans hq (hglobrest x hx' q hqd)
        · rw [if_neg hq] at h
          have hpair : (r2, q2) = (r, m) := Option.some.inj h
          have ha : r2 = r := congrArg Prod.fst hpair
          have hq2 : q2 = m := congrArg Prod.snd hpair
          subst ha; subst hq2
          have hlt : q2 < q0 := lt_of_not_ge hq
          refine ⟨h1rec, a :: prest, srest, by rw [List.cons_append, hpsrest], ?_, ?_⟩
          · intro x hx q hqd
            rcases List.mem_cons.mp hx with rfl | hx'
            · rw [hd] at hqd
              rw [← Option.some.inj hqd]
              exact le_of_lt hlt
            · exact hglobrest x hx' q hqd
          · intro x hx q hqd
            rcases List.mem_cons.mp hx with rfl | hx'
            · rw [hd] at hqd
              rw [← Option.some.inj hqd]
              exact hlt
            · exact hprerest x hx' q hqd

lemma argminDuration_isSome {g : List LapRecord} {x : LapRecord} (hx : x ∈ g)
    {q : ℚ} (hq : x.lap_duration = some q) :
    (argminDuration g).isSome = true := by
  cases h : argminDuration g with
  | none =>
    have := argminDuration_none h x hx
    rw [hq] at this; cases this
  | some p => rfl

lemma argminDuration_mem {g : List LapRecord} {r : LapRecord} {m : ℚ}
    (h : argminDuration g = some (r, m)) : r ∈ g := by
  obtain ⟨-, p, s, hps, -, -⟩ := argminDuration_spec h
  rw [hps]
  exact List.mem_append_right _ (List.mem_cons_self _ _)

/-- Lifting a decomposition of a filtered list back to the unfiltered one:
the elements in front of `r` that pass the filter are exactly those in
front of `r` in the filtered list. -/
lemma filter_decomp {p : LapRecord → Bool} {l gp gs : List LapRecord} {r : LapRecord}
    (h : l.filter p = gp ++ r :: gs) :
    ∃ pre post, l = pre ++ r :: post ∧ ∀ x ∈ pre, p x = true → x ∈ gp := by
  induction l generalizing gp with
  | nil =>
    exfalso
    rw [List.filter_nil] at h
    exact absurd h.symm (List.append_ne_nil_of_right_ne_nil _ (by simp))
  | cons a l ih =>
    cases hb : p a with
    | true =>
      rw [List.filter_cons_of_pos hb] at h
      cases gp with
      | nil =>
        rw [List.nil_append] at h
        have ha : a = r := (List.cons.injEq _ _ _ _ ▸ h).1
        subst ha
        exact ⟨[], l, rfl, by intro x hx; cases hx⟩
      | cons g0 gtl =>
        rw [List.cons_append] at h
        have h1 : a = g0 := (List.cons.injEq _ _ _ _ ▸ h).1
        have h2 : l.filter p = gtl ++ r :: gs := (List.cons.injEq _ _ _ _ ▸ h).2
        obtain ⟨pre, post, hl, hcond⟩ := ih h2
        refine ⟨a :: pre, post, by rw [List.cons_append, hl], ?_⟩
        intro x hx hpx
        rcases List.mem_cons.mp hx with rfl | hx'
        · rw [h1]; exact List.mem_cons_self _ _
        · exact List.mem_cons_of_mem _ (hcond x hx' hpx)
    | false =>
      rw [List.filter_cons_of_neg (by simp [hb])] at h
      obtain ⟨pre, post, hl, hcond⟩ := ih h
      refine ⟨a :: pre, post, by rw [List.cons_append, hl], ?_⟩
      intro x hx hpx
      rcases List.mem_cons.mp hx with rfl | hx'
      · rw [hb] at hpx; cases hpx
      · exact hcond x hx' hpx

lemma forall2_exists_right {α β : Type} {R : α → β → Prop} {l1 : List α} {l2 : List β}
    (h : List.Forall₂ R l1 l2) {b : α} (hb : b ∈ l1) : ∃ d ∈ l2, R b d := by
  induction h with
  | nil => cases hb
  | cons hR hrest ih =>
    rcases List.mem_cons.mp hb with rfl | hb'
    · exact ⟨_, List.mem_cons_self _ _, hR⟩
    · obtain ⟨d, hd, hRd⟩ := ih hb'
      exact ⟨d, List.mem_cons_of_mem _ hd, hRd⟩

lemma forall2_map_eq {α β : Type} {R : α → β → Prop} {f : α → β} {l1 : List α} {l2 : List β}
    (h : List.Forall₂ R l1 l2) (hf : ∀ a b, R a b → f a = b) : l1.map f = l2 := by
  induction h with
  | nil => rfl
  | cons hR hrest ih => simp [hf _ _ hR, ih]

lemma bestLapsAux_spec (df : List LapRecord) (ds : List ℤ)
    (h : ∀ d ∈ ds, (argminDuration (groupOf df d)).isSome = true) :
    ∃ out, bestLapsAux df ds = some out ∧
      List.Forall₂ (fun (b : BestLapRow) (d : ℤ) =>
        ∃ src m, argminDuration (groupOf df d) = some (src, m) ∧ b = projectBest src)
        out ds := by
  induction ds with
  | nil => exact ⟨[], rfl, List.Forall₂.nil⟩
  | cons d ds ih =>
    have hd := h d (List.mem_cons_self _ _)
    cases had : argminDuration (groupOf df d) with
    | none => rw [had] at hd; cases hd
    | some p =>
      obtain ⟨src, m⟩ := p
      obtain ⟨out, hout, hfa⟩ := ih (fun x hx => h x (List.mem_cons_of_mem _ hx))
      refine ⟨projectBest src :: out, ?_, List.Forall₂.cons ⟨src, m, had, rfl⟩ hfa⟩
      simp only [bestLapsAux, had, hout]

lemma lapLE_ordered {a b : LapRecord} (h : lapLE a b) : lapOrdered a b := by
  rw [lapLE, lapKey, lapKey, Prod.Lex.le_iff] at h
  exact h

/-! ### Lemmas about the per-column aggregates -/

lemma minList_isMin (l : List ℚ) : isMinOf (minList l) l := by
  induction l with
  | nil => rfl
  | cons x xs ih =>
    cases h : minList xs with
    | none =>
      have hxs : xs = [] := by rw [h] at ih; exact ih
      subst hxs
      simp only [minList]
      exact ⟨List.mem_singleton.mpr rfl, by intro y hy; rw [List.mem_singleton.mp hy]⟩
    | some m =>
      rw [h] at ih
      obtain ⟨hmem, hbd⟩ := ih
      simp only [minList, h]
      constructor
      · rcases le_total x m with hxm | hmx
        · rw [min_eq_left hxm]; exact List.mem_cons_self _ _
        · rw [min_eq_right hmx]; exact List.mem_cons_of_mem _ hmem
      · intro y hy
        rcases List.mem_cons.mp hy with rfl | hy'
        · exact min_le_left _ _
        · exact le_trans (min_le_right _ _) (hbd y hy')

lemma minOpt_isMin (l : List (Option ℚ)) : isMinOf (minOpt l) (l.filterMap id) :=
  minList_isMin _

lemma filterMap_id_map {α β : Type} (f : α → Option β) (l : List α) :
    (l.map f).filterMap id = l.filterMap f := by
  induction l with
  | nil => rfl
  | cons a l ih => cases h : f a <;> simp [List.filterMap_cons, h, ih]

lemma meanOpt_empty {l : List (Option ℚ)} (h : l.filterMap id = []) : meanOpt l = none := by
  simp [meanOpt, h]

lemma meanOpt_present {l : List (Option ℚ)} (h : l.filterMap id ≠ []) :
    meanOpt l = some ((l.filterMap id).sum / ((l.filterMap id).length : ℚ)) := by
  rw [meanOpt]
  rw [if_neg (by simpa using h)]

lemma filter_map_key_not_mem {β : Type} (g : ℤ → β) (ks : List ℤ) (k0 : ℤ) (h : k0 ∉ ks) :
    (ks.map (fun k => (k, g k))).filter (fun kb => decide (kb.1 = k0)) = [] := by
  apply List.filter_eq_nil_iff.mpr
  intro b hb
  rw [List.mem_map] at hb
  obtain ⟨k, hkmem, hkb⟩ := hb
  rw [← hkb]
  simp only [decide_eq_true_eq, Bool.not_eq_true]
  intro hkk
  exact h (hkk ▸ hkmem)

lemma filter_map_key_mem {β : Type} (g : ℤ → β) (ks : List ℤ) (k0 : ℤ)
    (hnd : ks.Nodup) (hm : k0 ∈ ks) :
    (ks.map (fun k => (k, g k))).filter (fun kb => decide (kb.1 = k0)) = [(k0, g k0)] := by
  induction ks with
  | nil => cases hm
  | cons k ks ih =>
    rw [List.nodup_cons] at hnd
    rw [List.map_cons, List.filter_cons]
    rcases List.mem_cons.mp hm with rfl | hm'
    · rw [if_pos (by simp)]
      rw [filter_map_key_not_mem g ks k0 hnd.1]
    · have hne : k ≠ k0 := by
        rintro rfl
        exact hnd.1 hm'
      rw [if_neg (by simp [hne])]
      exact ih hnd.2 hm'

lemma innerMerge_left_elems {α β : Type} (right : List (ℤ × β)) (ls : List ℤ)
    (f : ℤ → α) (g : ℤ → β)
    (hfil : ∀ k ∈ ls, right.filter (fun kb => decide (kb.1 = k)) = [(k, g k)]) :
    innerMergeRows (ls.map fun k => (k, f k)) right = ls.map fun k => (k, f k, g k) := by
  induction ls with
  | nil => rfl
  | cons k ks ih =>
    show ((right.filter (fun kb => decide (kb.1 = k))).map (fun kb => (k, f k, kb.2))) ++
        innerMergeRows (ks.map fun k => (k, f k)) right =
      (k, f k, g k) :: (ks.map fun k => (k, f k, g k))
    rw [hfil k (List.mem_cons_self _ _),
        ih (fun x hx => hfil x (List.mem_cons_of_mem _ hx))]
    rfl

/-- For non-empty input, `get_race_lap_times` unfolds to the merge of the
three per-group aggregate tables. -/
lemma get_race_lap_times_unfold (df : List LapRecord) (hne : df ≠ []) :
    get_race_lap_times df =
      (innerMergeRows (innerMergeRows
          ((groupKeys df).map (fun d =>
            (d, minOpt ((groupOf df d).map LapRecord.lap_duration))))
          ((groupKeys df).map (fun d =>
            (d, meanOpt ((groupOf df d).map LapRecord.i1_speed),
                meanOpt ((groupOf df d).map LapRecord.i2_speed),
                meanOpt ((groupOf df d).map LapRecord.st_speed)))))
          ((groupKeys df).map (fun d =>
            (d, minOpt ((groupOf df d).map LapRecord.duration_sector_1),
                minOpt ((groupOf df d).map LapRecord.duration_sector_2),
                minOpt ((groupOf df d).map LapRecord.duration_sector_3))))).map
        (fun x =>
          (x.1,
           { best_lap_duration := x.2.1.1
             mean_i1_speed := x.2.1.2.1
             mean_i2_speed := x.2.1.2.2.1
             mean_st_speed := x.2.1.2.2.2
             best_sector_1 := x.2.2.1
             best_sector_2 := x.2.2.2.1
             best_sector_3 := x.2.2.2.2 })) := by
  cases df with
  | nil => exact absurd rfl hne
  | cons a l => rfl

/-- For non-empty input, `get_race_lap_times` is one row per distinct
driver, each field the corresponding aggregate of that driver's group. -/
lemma get_race_lap_times_eq (df : List LapRecord) (hne : df ≠ []) :
    get_race_lap_times df = (groupKeys df).map (fun d =>
      (d,
       ({ best_lap_duration := minOpt ((groupOf df d).map LapRecord.lap_duration)
          mean_i1_speed := meanOpt ((groupOf df d).map LapRecord.i1_speed)
          mean_i2_speed := meanOpt ((groupOf df d).map LapRecord.i2_speed)
          mean_st_speed := meanOpt ((groupOf df d).map LapRecord.st_speed)
          best_sector_1 := minOpt ((groupOf df d).map LapRecord.duration_sector_1)
          best_sector_2 := minOpt ((groupOf df d).map LapRecord.duration_sector_2)
          best_sector_3 := minOpt ((groupOf df d).map LapRecord.duration_sector_3) } :
         AggFields))) := by
  rw [get_race_lap_times_unfold df hne]
  rw [innerMerge_left_elems _ (groupKeys df)
    (fun d => minOpt ((groupOf df d).map LapRecord.lap_duration))
    (fun d =>
      (meanOpt ((groupOf df d).map LapRecord.i1_speed),
       meanOpt ((groupOf df d).map LapRecord.i2_speed),
       meanOpt ((groupOf df d).map LapRecord.st_speed)))
    (fun k hk => filter_map_key_mem _ _ k (groupKeys_nodup df) hk)]
  rw [innerMerge_left_elems _ (groupKeys df)
    (fun d =>
      (minOpt ((groupOf df d).map LapRecord.lap_duration),
       meanOpt ((groupOf df d).map LapRecord.i1_speed),
       meanOpt ((groupOf df d).map LapRecord.i2_speed),
       meanOpt ((groupOf df d).map LapRecord.st_speed)))
    (fun d =>
      (minOpt ((groupOf df d).map LapRecord.duration_sector_1),
       minOpt ((groupOf df d).map LapRecord.duration_sector_2),
       minOpt ((groupOf df d).map LapRecord.duration_sector_3)))
    (fun k hk => filter_map_key_mem _ _ k (groupKeys_nodup df) hk)]
  rw [List.map_map]
  rfl


/-! ### Claims C3, C4, C5, C6 (the lap pipeline) -/

/-- Claim C6: the filter stage's output contains exactly the input records
with a present `lap_duration` (as a multiset), is ordered by ascending
`driver_number` then ascending `lap_number`, and every record downstream of
it has a present `lap_duration`. -/
theorem process_lap_data_filter_sort (df : List LapRecord) :
    List.Perm (process_lap_data df) (df.filter (fun r => r.lap_duration.isSome)) ∧
    List.Pairwise lapOrdered (process_lap_data df) ∧
    ∀ r ∈ process_lap_data df, r.lap_duration.isSome = true := by
  cases df with
  | nil =>
    refine ⟨List.Perm.refl _, List.Pairwise.nil, ?_⟩
    intro r hr
    change r ∈ ([] : List LapRecord) at hr
    cases hr
  | cons a l =>
    have hproc : process_lap_data (a :: l) =
        List.insertionSort lapLE ((a :: l).filter (fun r => r.lap_duration.isSome)) := rfl
    rw [hproc]
    refine ⟨List.perm_insertionSort _ _, ?_, ?_⟩
    · exact List.Pairwise.imp (fun h => lapLE_ordered h) (List.sorted_insertionSort _ _)
    · intro r hr
      have hrf : r ∈ (a :: l).filter (fun r => r.lap_duration.isSome) :=
        (List.perm_insertionSort _ _).mem_iff.mp hr
      have hp := List.of_mem_filter hrf
      exact hp

/-- Claim C3: on a non-empty filtered lap table, `get_best_lap_times`
returns (no exception) one row per distinct `driver_number`, and each row
is the eight-column projection of the single source record achieving the
minimal `lap_duration` of its driver — on a tie, the first such record in
input order (every earlier record of the driver is strictly slower). -/
theorem get_best_lap_times_per_driver (df : List LapRecord) (hne : df ≠ [])
    (hfil : ∀ r ∈ df, r.lap_duration.isSome = true) :
    ∃ out, get_best_lap_times df = some out ∧
      (out.map BestLapRow.driver_number).Nodup ∧
      (∀ d : ℤ, d ∈ out.map BestLapRow.driver_number ↔ d ∈ df.map LapRecord.driver_number) ∧
      ∀ b ∈ out, ∃ pre src post m, df = pre ++ src :: post ∧
        src.driver_number = b.driver_number ∧
        b = projectBest src ∧
        src.lap_duration = some m ∧
        (∀ x ∈ df, x.driver_number = b.driver_number →
          ∀ q, x.lap_duration = some q → m ≤ q) ∧
        (∀ x ∈ pre, x.driver_number = b.driver_number →
          ∀ q, x.lap_duration = some q → m < q) := by
  have hge : get_best_lap_times df = bestLapsAux df (groupKeys df) := by
    cases df with
    | nil => exact absurd rfl hne
    | cons a l => rfl
  have hsome : ∀ d ∈ groupKeys df, (argminDuration (groupOf df d)).isSome = true := by
    intro d hd
    rw [mem_groupKeys, List.mem_map] at hd
    obtain ⟨x, hx, hxd⟩ := hd
    have hxg : x ∈ groupOf df d := mem_groupOf.mpr ⟨hx, hxd⟩
    obtain ⟨q, hq⟩ := Option.isSome_iff_exists.mp (hfil x hx)
    exact argminDuration_isSome hxg hq
  obtain ⟨out, hout, hfa⟩ := bestLapsAux_spec df (groupKeys df) hsome
  have hRdn : ∀ (b : BestLapRow) (d : ℤ),
      (∃ src m, argminDuration (groupOf df d) = some (src, m) ∧ b = projectBest src) →
      b.driver_number = d := by
    rintro b d ⟨src, m, hsrc, rfl⟩
    exact (mem_groupOf.mp (argminDuration_mem hsrc)).2
  have hmap : out.map BestLapRow.driver_number = groupKeys df := forall2_map_eq hfa hRdn
  refine ⟨out, by rw [hge]; exact hout, ?_, ?_, ?_⟩
  · rw [hmap]; exact groupKeys_nodup df
  · intro d; rw [hmap]; exact mem_groupKeys
  · intro b hb
    obtain ⟨d, hdks, src, m, hsrc, hbeq⟩ := forall2_exists_right hfa hb
    obtain ⟨hdur, gp, gs, hgps, hglob, hpre⟩ := argminDuration_spec hsrc
    have hgps' : df.filter (fun r => decide (r.driver_number = d)) = gp ++ src :: gs := hgps
    obtain ⟨pre, post, hlp, hcond⟩ := filter_decomp hgps'
    have hbd : b.driver_number = d := hRdn b d ⟨src, m, hsrc, hbeq⟩
    have hsrcd : src.driver_number = d := (mem_groupOf.mp (argminDuration_mem hsrc)).2
    refine ⟨pre, src, post, m, hlp, by rw [hsrcd, hbd], hbeq, hdur, ?_, ?_⟩
    · intro x hx hxdb q hq
      have hxg : x ∈ groupOf df d := mem_groupOf.mpr ⟨hx, by rw [hxdb, hbd]⟩
      exact hglob x hxg q hq
    · intro x hx hxdb q hq
      have hpx : decide (x.driver_number = d) = true := by simp [hxdb, hbd]
      exact hpre x (hcond x hx hpx) q hq

/-- Witness for C3, the spec's scenario: driver 1's two valid laps; the
89.0s lap 2 is selected whole. -/
theorem get_best_lap_times_per_driver_witness :
    ([specLap1, specLap2] ≠ []) ∧
    (∀ r ∈ [specLap1, specLap2], r.lap_duration.isSome = true) ∧
    (∃ out, get_best_lap_times [specLap1, specLap2] = some out ∧
      (out.map BestLapRow.driver_number).Nodup ∧
      (∀ d : ℤ, d ∈ out.map BestLapRow.driver_number ↔
        d ∈ [specLap1, specLap2].map LapRecord.driver_number) ∧
      ∀ b ∈ out, ∃ pre src post m, [specLap1, specLap2] = pre ++ src :: post ∧
        src.driver_number = b.driver_number ∧
        b = projectBest src ∧
        src.lap_duration = some m ∧
        (∀ x ∈ [specLap1, specLap2], x.driver_number = b.driver_number →
          ∀ q, x.lap_duration = some q → m ≤ q) ∧
        (∀ x ∈ pre, x.driver_number = b.driver_number →
          ∀ q, x.lap_duration = some q → m < q)) :=
  ⟨by decide, by decide, get_best_lap_times_per_driver _ (by decide) (by decide)⟩

/-- Claim C4: on a non-empty filtered lap table, each `best_sector_k` of a
driver's aggregate row is the minimum of that sector-duration field over
the driver's laps, minimized per field with absent cells excluded. -/
theorem race_best_sectors (df : List LapRecord) (hne : df ≠ [])
    (_hfil : ∀ r ∈ df, r.lap_duration.isSome = true) :
    ∀ row ∈ get_race_lap_times df,
      isMinOf row.2.best_sector_1 ((groupOf df row.1).filterMap LapRecord.duration_sector_1) ∧
      isMinOf row.2.best_sector_2 ((groupOf df row.1).filterMap LapRecord.duration_sector_2) ∧
      isMinOf row.2.best_sector_3 ((groupOf df row.1).filterMap LapRecord.duration_sector_3) := by
  intro row hrow
  rw [get_race_lap_times_eq df hne, List.mem_map] at hrow
  obtain ⟨d, hd, hrw⟩ := hrow
  subst hrw
  refine ⟨?_, ?_, ?_⟩
  · have h := minOpt_isMin ((groupOf df d).map LapRecord.duration_sector_1)
    rw [filterMap_id_map] at h
    exact h
  · have h := minOpt_isMin ((groupOf df d).map LapRecord.duration_sector_2)
    rw [filterMap_id_map] at h
    exact h
  · have h := minOpt_isMin ((groupOf df d).map LapRecord.duration_sector_3)
    rw [filterMap_id_map] at h
    exact h

/-- Witness for C4: with a lap whose `duration_sector_2` is absent, the
sector minima are still attained and absent cells are excluded. -/
theorem race_best_sectors_witness :
    ([aggLap1, aggLap2] ≠ []) ∧
    (∀ r ∈ [aggLap1, aggLap2], r.lap_duration.isSome = true) ∧
    (∀ row ∈ get_race_lap_times [aggLap1, aggLap2],
      isMinOf row.2.best_sector_1
        ((groupOf [aggLap1, aggLap2] row.1).filterMap LapRecord.duration_sector_1) ∧
      isMinOf row.2.best_sector_2
        ((groupOf [aggLap1, aggLap2] row.1).filterMap LapRecord.duration_sector_2) ∧
      isMinOf row.2.best_sector_3
        ((groupOf [aggLap1, aggLap2] row.1).filterMap LapRecord.duration_sector_3)) :=
  ⟨by decide, by decide, race_best_sectors _ (by decide) (by decide)⟩

/-- Claim C5: each mean-speed field of a driver's aggregate row is the
arithmetic mean of the present samples of that field only — absent samples
are excluded from numerator and denominator, and a driver with no present
sample for a field gets an absent mean, not zero. -/
theorem race_mean_speeds (df : List LapRecord) (hne : df ≠ [])
    (_hfil : ∀ r ∈ df, r.lap_duration.isSome = true) :
    ∀ row ∈ get_race_lap_times df,
      ((groupOf df row.1).filterMap LapRecord.i1_speed = [] → row.2.mean_i1_speed = none) ∧
      ((groupOf df row.1).filterMap LapRecord.i1_speed ≠ [] → row.2.mean_i1_speed =
        some (((groupOf df row.1).filterMap LapRecord.i1_speed).sum /
          (((groupOf df row.1).filterMap LapRecord.i1_speed).length : ℚ))) ∧
      ((groupOf df row.1).filterMap LapRecord.i2_speed = [] → row.2.mean_i2_speed = none) ∧
      ((groupOf df row.1).filterMap LapRecord.i2_speed ≠ [] → row.2.mean_i2_speed =
        some (((groupOf df row.1).filterMap LapRecord.i2_speed).sum /
          (((groupOf df row.1).filterMap LapRecord.i2_speed).length : ℚ))) ∧
      ((groupOf df row.1).filterMap LapRecord.st_speed = [] → row.2.mean_st_speed = none) ∧
      ((groupOf df row.1).filterMap LapRecord.st_speed ≠ [] → row.2.mean_st_speed =
        some (((groupOf df row.1).filterMap LapRecord.st_speed).sum /
          (((groupOf df row.1).filterMap LapRecord.st_speed).length : ℚ))) := by
  intro row hrow
  rw [get_race_lap_times_eq df hne, List.mem_map] at hrow
  obtain ⟨d, hd, hrw⟩ := hrow
  subst hrw
  refine ⟨?_, ?_, ?_, ?_, ?_, ?_⟩
  · intro h
    apply meanOpt_empty
    rw [filterMap_id_map]
    exact h
  · intro h
    have h' : ((groupOf df d).map LapRecord.i1_speed).filterMap id ≠ [] := by
      rw [filterMap_id_map]; exact h
    have h2 := meanOpt_present h'
    rw [filterMap_id_map] at h2
    exact h2
  · intro h
    apply meanOpt_empty
    rw [filterMap_id_map]
    exact h
  · intro h
    have h' : ((groupOf df d).map LapRecord.i2_speed).filterMap id ≠ [] := by
      rw [filterMap_id_map]; exact h
    have h2 := meanOpt_present h'
    rw [filterMap_id_map] at h2
    exact h2
  · intro h
    apply meanOpt_empty
    rw [filterMap_id_map]
    exact h
  · intro h
    have h' : ((groupOf df d).map LapRecord.st_speed).filterMap id ≠ [] := by
      rw [filterMap_id_map]; exact h
    have h2 := meanOpt_present h'
    rw [filterMap_id_map] at h2
    exact h2

/-- Witness for C5: driver 1 has two present `i1_speed` samples but only
one present `i2_speed` sample, so each mean ranges over the present
samples only. -/
theorem race_mean_speeds_witness :
    ([aggLap1, aggLap2] ≠ []) ∧
    (∀ r ∈ [aggLap1, aggLap2], r.lap_duration.isSome = true) ∧
    (∀ row ∈ get_race_lap_times [aggLap1, aggLap2],
      ((groupOf [aggLap1, aggLap2] row.1).filterMap LapRecord.i1_speed = [] →
        row.2.mean_i1_speed = none) ∧
      ((groupOf [aggLap1, aggLap2] row.1).filterMap LapRecord.i1_speed ≠ [] →
        row.2.mean_i1_speed =
        some (((groupOf [aggLap1, aggLap2] row.1).filterMap LapRecord.i1_speed).sum /
          (((groupOf [aggLap1, aggLap2] row.1).filterMap LapRecord.i1_speed).length : ℚ))) ∧
      ((groupOf [aggLap1, aggLap2] row.1).filterMap LapRecord.i2_speed = [] →
        row.2.mean_i2_speed = none) ∧
      ((groupOf [aggLap1, aggLap2] row.1).filterMap LapRecord.i2_speed ≠ [] →
        row.2.mean_i2_speed =
        some (((groupOf [aggLap1, aggLap2] row.1).filterMap LapRecord.i2_speed).sum /
          (((groupOf [aggLap1, aggLap2] row.1).filterMap LapRecord.i2_speed).length : ℚ))) ∧
      ((groupOf [aggLap1, aggLap2] row.1).filterMap LapRecord.st_speed = [] →
        row.2.mean_st_speed = none) ∧
      ((groupOf [aggLap1, aggLap2] row.1).filterMap LapRecord.st_speed ≠ [] →
        row.2.mean_st_speed =
        some (((groupOf [aggLap1, aggLap2] row.1).filterMap LapRecord.st_speed).sum /
          (((groupOf [aggLap1, aggLap2] row.1).filterMap LapRecord.st_speed).length : ℚ)))) :=
  ⟨by decide, by decide, race_mean_speeds _ (by decide) (by decide)⟩


end F1M
